import Mathlib

/-!
Verification of the weekly-planner front-end ("Weekly Focus").

This file shallowly embeds the core logic of the repository:
* `src/App.tsx` — timer state machine (`toggleTimer`, `stopTimer`,
  `createTaskFromGoal`), week helpers (`getMonday`, `getWeekNumber`,
  `generateWeekLabel`), the archive auto-sync effect, `handleSelectWeek`,
  `handleSaveTask`, and the legacy `dailyThoughts` decoding;
* `src/unnamed/part_000` (the history modal) — `getMajorityMonthInfo` and the
  `calendarData` year/month/week grid generation.

Conventions of the embedding:
* JavaScript `Date` values are modelled two ways, matching how each source
  function manipulates them: `JSDate` (days since the Unix epoch plus
  minutes-within-day; 1970-01-01 is a Thursday, `getDay() = 4`) for
  `getMonday`, and `CivilDate` (proleptic Gregorian year / 0-based month /
  1-based day-of-month, matching `getFullYear`/`getMonth`/`getDate` and the
  rollover semantics of `setDate`) for the calendar-grid code.  Time zones and
  DST are out of scope: all dates are local-midnight dates.
* Machine timestamps (`Date.now()`) are `Nat` milliseconds.
* JavaScript arrays are `List`s, records (string-keyed objects) used as maps
  are association lists, and `undefined`-able values are `Option`s.
* `Math.ceil` over exact quantities is `Int.ceil` on `ℚ` where the source
  computes with floats (the float computations involved are exact for the
  relevant ranges), and explicit `(a + b - 1) / b` on `Nat` where we embed the
  integer result directly; the two are related by proved lemmas.
-/

namespace WeeklyFocus

/-! ### Constants (`src/constants.ts`) -/

def DAYS_OF_WEEK : List String := ["Mon", "Tue", "Wed", "Thu", "Fri", "Sat", "Sun"]

def START_HOUR : Nat := 6

def END_HOUR : Nat := 23

def TASK_COLORS : List String :=
  [ "bg-blue-100 border-blue-300 text-blue-800"
  , "bg-green-100 border-green-300 text-green-800"
  , "bg-purple-100 border-purple-300 text-purple-800"
  , "bg-orange-100 border-orange-300 text-orange-800"
  , "bg-rose-100 border-rose-300 text-rose-800" ]

/-! ### Data model (`src/App.tsx` interfaces) -/

/-- Structure `Task` from `src/App.tsx`: optional fields are `Option`s
(`dayIndex`/`startTime` are `number | null` / `string | null`). -/
structure Task where
  id : String
  title : String
  description : Option String := none
  dayIndex : Option Nat := none
  startTime : Option String := none
  duration : Nat := 30
  isCompleted : Bool := false
  color : Option String := none
  deriving DecidableEq, Inhabited

/-- Structure `Goal` from `src/App.tsx`. -/
structure Goal where
  id : String
  text : String
  isCompleted : Bool
  color : String
  deriving DecidableEq, Inhabited

/-- The persisted `dailyThoughts` field: either the legacy single-string shape
or the current day-label-keyed map (a string-keyed JS object, modelled as an
association list). -/
inductive ThoughtsField where
  | legacy (s : String)
  | mapNotes (m : List (String × String))
  deriving DecidableEq, Inhabited

/-- Structure `WeeklyArchive` from `src/App.tsx`; `dailyThoughts?` is optional and may
have the legacy shape. -/
structure WeeklyArchive where
  id : String
  weekStartDate : String
  weekLabel : String
  tasks : List Task
  goals : List Goal
  dailyThoughts : Option ThoughtsField := none
  deriving DecidableEq, Inhabited

/-- Structure `TimerState` from `src/App.tsx`; `startTime` is a `Date.now()` millisecond
timestamp, `accumulated` is in whole seconds. -/
structure TimerState where
  goalId : String
  startTime : Nat
  accumulated : Nat
  isRunning : Bool
  deriving DecidableEq, Inhabited

/-- The React component state of `App` that the core handlers read and write
(presentation-only state such as drag refs and modal-open booleans other than
the history picker is omitted; it is never touched by the embedded handlers).
The active week's `dailyThoughts` is the decoded map shape. -/
structure AppState where
  tasks : List Task
  goals : List Goal
  dailyThoughts : List (String × String)
  archives : List WeeklyArchive
  currentWeekStartDate : String
  currentWeekLabel : String
  activeTimer : Option TimerState
  timerDisplay : Nat
  isHistoryOpen : Bool
  deriving DecidableEq, Inhabited

/-! ### Small helpers -/

/-- Embeds `String(n).padStart(2, '0')` for the `Nat` values produced by the app. -/
def pad2 (n : Nat) : String :=
  if n < 10 then "0" ++ toString n else toString n

/-- Hour-of-day of a local millisecond timestamp (`Date#getHours`). -/
def hoursOfMs (ms : Nat) : Nat := ms / 3600000 % 24

/-- Minute-of-hour of a local millisecond timestamp (`Date#getMinutes`). -/
def minutesOfMs (ms : Nat) : Nat := ms / 60000 % 60

/-- Embeds `getCurrentDayIndex` from `src/App.tsx`: `(new Date().getDay() + 6) % 7`,
computed from a millisecond timestamp (1970-01-01 has `getDay() = 4`). -/
def getCurrentDayIndex (now : Nat) : Nat :=
  ((now / 86400000 + 4) % 7 + 6) % 7

/-! ### Timer logic (`src/App.tsx` lines 256–334) -/

/-- Embeds `toggleTimer` from `src/App.tsx`.  `now` stands for the `Date.now()` calls
inside the handler (all within one event, hence one instant). -/
def toggleTimer (now : Nat) (goalId : String) (s : AppState) : AppState :=
  match s.activeTimer with
  | some t =>
    if t.goalId = goalId then
      if t.isRunning then
        -- Pause
        { s with activeTimer := some { t with
            isRunning := false
            accumulated := t.accumulated + (now - t.startTime) / 1000 } }
      else
        -- Resume
        { s with activeTimer := some { t with isRunning := true, startTime := now } }
    else
      -- Start new timer (implicit reset of previous if any)
      { s with activeTimer := some ⟨goalId, now, 0, true⟩, timerDisplay := 0 }
  | none =>
    { s with activeTimer := some ⟨goalId, now, 0, true⟩, timerDisplay := 0 }

/-- Embeds `createTaskFromGoal` from `src/App.tsx` (lines 423–434); `newId` stands for
the `generateId()` call. -/
def createTaskFromGoal (newId : String) (text : String) (dayIndex : Nat)
    (startTime : String) (color : String) (duration : Nat := 30)
    (isCompleted : Bool := false) (s : AppState) : AppState :=
  { s with tasks := s.tasks ++
      [{ id := newId, title := text, dayIndex := some dayIndex
       , startTime := some startTime, duration := duration
       , isCompleted := isCompleted, color := some color }] }

/-- Embeds `stopTimer` from `src/App.tsx` (lines 287–334).  `now` is the instant of
the handler's `Date.now()` / `new Date()` calls, `newId` the generated task
id. -/
def stopTimer (now : Nat) (newId : String) (goalId : String) (s : AppState) : AppState :=
  match s.activeTimer with
  | none => s
  | some t =>
    if t.goalId ≠ goalId then s
    else
      let totalSeconds : Nat :=
        t.accumulated + (if t.isRunning then (now - t.startTime) / 1000 else 0)
      let s := { s with activeTimer := none, timerDisplay := 0 }
      if totalSeconds > 0 then
        let minutes : Nat := (totalSeconds + 59) / 60        -- Math.ceil(totalSeconds / 60)
        let roundedDuration : Nat := max 15 ((minutes + 14) / 15 * 15)
        let goal : Option Goal := s.goals.find? (fun g => g.id = goalId)
        let startMs : Nat := now - totalSeconds * 1000
        let h0 : Nat := hoursOfMs startMs
        let m : Nat := minutesOfMs startMs
        let h : Nat := if h0 < START_HOUR then START_HOUR else h0
        let timeString : String := pad2 h ++ ":" ++ (if m < 30 then "00" else "30")
        let todayIndex : Nat := getCurrentDayIndex now
        -- `goal?.text || 'Focus Session'`: the empty string is falsy in JS
        let title : String :=
          (match goal with
           | some g => if g.text = "" then "Focus Session" else g.text
           | none => "Focus Session") ++ " (Timer)"
        let color : String :=
          match goal with
          | some g => if g.color = "" then TASK_COLORS[2]! else g.color
          | none => TASK_COLORS[2]!
        createTaskFromGoal newId title todayIndex timeString color roundedDuration true s
      else
        s

/-! ### Date model A: day-number dates (`getMonday`, `src/App.tsx` lines 20–27)

`getMonday` only shifts a date by whole days and zeroes the time of day, so we
model the `Date` it manipulates as a day count since the Unix epoch plus the
minutes within the day.  1970-01-01 was a Thursday (`getDay() = 4`). -/

structure JSDate where
  day : Int
  mins : Nat
  deriving DecidableEq, Inhabited

/-- Embeds `Date#getDay` (Sunday = 0 .. Saturday = 6). -/
def jsGetDay (d : JSDate) : Int := (d.day + 4) % 7

/-- Embeds `getMonday` from `src/App.tsx`:
`diff = date.getDate() - day + (day === 0 ? -6 : 1)`, then `setDate(diff)` and
`setHours(0,0,0,0)`.  Shifting the day-of-month by a delta shifts the date by
that many days. -/
def getMonday (d : JSDate) : JSDate :=
  let day := jsGetDay d
  ⟨d.day + (if day = 0 then -6 else 1) - day, 0⟩

/-! ### Date model B: civil dates (history modal, `src/unnamed/part_000`)

The history modal reads `getFullYear`/`getMonth`/`getDate` and advances dates
with `setDate(getDate() + k)`, which rolls over month and year boundaries.  We
model these dates as proleptic-Gregorian triples with 0-based months. -/

structure CivilDate where
  year : Int
  month0 : Nat
  day : Nat
  deriving DecidableEq, Inhabited

/-- Gregorian leap-year rule. -/
def isLeap (y : Int) : Bool := y % 4 = 0 && (y % 100 ≠ 0 || y % 400 = 0)

/-- Number of days in month `m0` (0 = January .. 11 = December) of year `y`. -/
def daysInMonth (y : Int) (m0 : Nat) : Nat :=
  match m0 with
  | 0 => 31
  | 1 => if isLeap y then 29 else 28
  | 2 => 31
  | 3 => 30
  | 4 => 31
  | 5 => 30
  | 6 => 31
  | 7 => 31
  | 8 => 30
  | 9 => 31
  | 10 => 30
  | _ => 31

/-- The day after `d` (the rollover `Date#setDate` performs). -/
def nextDay (d : CivilDate) : CivilDate :=
  if d.day < daysInMonth d.year d.month0 then ⟨d.year, d.month0, d.day + 1⟩
  else if d.month0 < 11 then ⟨d.year, d.month0 + 1, 1⟩
  else ⟨d.year + 1, 0, 1⟩

/-- Embeds `date.setDate(date.getDate() + n)` for `n ≥ 0`. -/
def addDays (d : CivilDate) : Nat → CivilDate
  | 0 => d
  | n + 1 => addDays (nextDay d) n

/-- The day before `d` (rollover of `setDate` with a non-positive argument);
only used to state the ISO week-numbering year below. -/
def prevDay (d : CivilDate) : CivilDate :=
  if 1 < d.day then ⟨d.year, d.month0, d.day - 1⟩
  else if 0 < d.month0 then ⟨d.year, d.month0 - 1, daysInMonth d.year (d.month0 - 1)⟩
  else ⟨d.year - 1, 11, 31⟩

/-- Subtract `n` days from a civil date. -/
def subDays (d : CivilDate) : Nat → CivilDate
  | 0 => d
  | n + 1 => subDays (prevDay d) n

/-- Days since 1970-01-01 of a civil date (the count underlying `getTime` and
`getDay`); standard proleptic-Gregorian conversion, using that `Int` division
by a positive constant is floor division. -/
def dayNumber (c : CivilDate) : Int :=
  let m : Int := c.month0 + 1
  let y : Int := if m ≤ 2 then c.year - 1 else c.year
  let era : Int := y / 400
  let yoe : Int := y - era * 400
  let doy : Int := (153 * (if m ≤ 2 then m + 9 else m - 3) + 2) / 5 + (c.day : Int) - 1
  let doe : Int := yoe * 365 + yoe / 4 - yoe / 100 + doy
  era * 146097 + doe - 719468

/-- Embeds `Date#getDay` of a civil date (Sunday = 0 .. Saturday = 6). -/
def weekdayOf (c : CivilDate) : Nat := ((dayNumber c + 4) % 7).toNat

/-- Embeds `getMajorityMonthInfo` from `src/unnamed/part_000` (both copies, lines
27–36 and 210–219): the year and 0-based month index of the input date plus 3
days (its Thursday when the input is a Monday). -/
def getMajorityMonthInfo (date : CivilDate) : Int × Nat :=
  let thursday := addDays date 3
  (thursday.year, thursday.month0)

/-! ### Week number and label (`src/App.tsx` lines 336–344) -/

/-- Embeds `getWeekNumber` from `src/App.tsx`:
`Math.ceil((((d.getTime() - onejan.getTime()) / millisecsInDay) + onejan.getDay() + 1) / 7)`.
`getTime` of a local-midnight date is its day number times 86400000 ms; the
float computation is exact for these ranges, so `Math.ceil` is `Int.ceil` on
`ℚ`. -/
def getWeekNumber (d : CivilDate) : Int :=
  let onejan : CivilDate := ⟨d.year, 0, 1⟩
  ⌈((((dayNumber d * 86400000 - dayNumber onejan * 86400000 : Int) : ℚ) / 86400000)
      + (weekdayOf onejan : ℚ) + 1) / 7⌉

/-- Embeds `generateWeekLabel` from `src/App.tsx`:
`` `${d.getFullYear()} - Week ${getWeekNumber(d)}` ``. -/
def generateWeekLabel (d : CivilDate) : String :=
  toString d.year ++ " - Week " ++ toString (getWeekNumber d)

/-- Modelled from the spec (claim side only, for comparison with
`generateWeekLabel`): the Monday of the Monday-anchored week containing `d`,
`date - ((weekday + 6) mod 7)` days. -/
def mondayOfCivil (d : CivilDate) : CivilDate :=
  subDays d ((weekdayOf d + 6) % 7)

/-- Modelled from the spec (claim side only): the ISO week-numbering year of
`d` — the calendar year containing the Thursday of `d`'s Monday-anchored
week. -/
def isoWeekYear (d : CivilDate) : Int :=
  (addDays (mondayOfCivil d) 3).year

/-! ### Legacy `dailyThoughts` decoding (`src/App.tsx` lines 110–114, 500–506) -/

/-- The data-loading effect's treatment of `parsed.dailyThoughts`
(`src/App.tsx` lines 110–114): a legacy string becomes a one-entry map keyed
by today's day label; a missing field becomes the empty map. -/
def decodeCurrentThoughts (todayLabel : String) :
    Option ThoughtsField → List (String × String)
  | some (.legacy s) => [(todayLabel, s)]
  | some (.mapNotes m) => m
  | none => []

/-- Embeds `handleSelectWeek`'s treatment of an archive's `dailyThoughts`
(`src/App.tsx` lines 500–506).  The source first tests
`!existingArchive.dailyThoughts`, which catches both a missing field and the
falsy legacy empty string (both become the empty map); only then does a
non-empty legacy string become `{ "Mon": s }`.  A map value — even the empty
object — is truthy and passes through verbatim. -/
def decodeArchiveThoughts : Option ThoughtsField → List (String × String)
  | some (.legacy s) => if s = "" then [] else [("Mon", s)]
  | some (.mapNotes m) => m
  | none => []

/-! ### Week navigation (`handleSelectWeek`, `src/App.tsx` lines 493–518) -/

/-- Embeds `startDate.split('T')[0]`: everything before the first `'T'` (the whole
string when there is none). -/
def jsSplitT (s : String) : String :=
  String.mk (s.toList.takeWhile (fun c => c ≠ 'T'))

/-- One decimal digit. -/
def charDigit (c : Char) : Option Nat :=
  if c.isDigit then some (c.toNat - 48) else none

/-- Decimal parse of a character list (`none` on any non-digit). -/
def parseNat (cs : List Char) : Option Nat :=
  cs.foldl
    (fun acc c =>
      match acc, charDigit c with
      | some n, some d => some (n * 10 + d)
      | _, _ => none)
    (some 0)

/-- Split a character list on `'-'`. -/
def splitDash : List Char → List (List Char)
  | [] => [[]]
  | c :: rest =>
    if c = '-' then [] :: splitDash rest
    else
      match splitDash rest with
      | g :: gs => (c :: g) :: gs
      | [] => [[c]]

/-- Embeds `new Date(startDate)` for the `"YYYY-MM-DD..."` strings the app passes
around (date-only precision; platform `Date` parsing modelled at the
boundary). -/
def parseDateStr (s : String) : CivilDate :=
  match (splitDash (jsSplitT s).toList).map parseNat with
  | [some y, some m, some d] => ⟨(y : Int), m - 1, d⟩
  | _ => ⟨1970, 0, 1⟩

/-- Embeds `handleSelectWeek` from `src/App.tsx` (lines 493–518). -/
def handleSelectWeek (startDate : String) (s : AppState) : AppState :=
  let targetDateStr := jsSplitT startDate
  match s.archives.find? (fun a => a.weekStartDate.startsWith targetDateStr) with
  | some existingArchive =>
    { s with
        tasks := existingArchive.tasks
        goals := existingArchive.goals
        dailyThoughts := decodeArchiveThoughts existingArchive.dailyThoughts
        currentWeekLabel := existingArchive.weekLabel
        currentWeekStartDate := targetDateStr
        isHistoryOpen := false }
  | none =>
    { s with
        tasks := []
        goals := []
        dailyThoughts := []
        currentWeekLabel := generateWeekLabel (parseDateStr startDate)
        currentWeekStartDate := targetDateStr
        isHistoryOpen := false }

/-! ### Archive auto-sync (`src/App.tsx` lines 163–201) -/

/-- JavaScript `Array#findIndex`, as an `Option Nat` (the source compares the
result with `>= 0`). -/
def jsFindIndex (p : α → Bool) : List α → Option Nat
  | [] => none
  | a :: l => if p a then some 0 else (jsFindIndex p l).map (· + 1)

/-- The `hasContent` test of the auto-sync effect:
`tasks.length > 0 || goals.length > 0 || Object.values(dailyThoughts).some(t => t.trim().length > 0)`. -/
def hasContent (tasks : List Task) (goals : List Goal)
    (dailyThoughts : List (String × String)) : Bool :=
  tasks.length > 0 || goals.length > 0
    || dailyThoughts.any (fun kv => kv.2.trim.length > 0)

/-- The archive auto-sync effect from `src/App.tsx` (lines 163–201), as the
pure archive-list transformer it applies via `setArchives`; `newId` stands for
the `generateId()` call used when no entry exists yet. -/
def syncArchives (newId : String) (tasks : List Task) (goals : List Goal)
    (dailyThoughts : List (String × String))
    (currentWeekStartDate currentWeekLabel : String)
    (prevArchives : List WeeklyArchive) : List WeeklyArchive :=
  let existingIndex := jsFindIndex (fun a => a.weekStartDate = currentWeekStartDate) prevArchives
  if ¬ hasContent tasks goals dailyThoughts then
    match existingIndex with
    | some i => prevArchives.eraseIdx i
    | none => prevArchives
  else
    let mkData (id : String) : WeeklyArchive :=
      { id := id, weekStartDate := currentWeekStartDate
      , weekLabel := currentWeekLabel, tasks := tasks, goals := goals
      , dailyThoughts := some (.mapNotes dailyThoughts) }
    match existingIndex with
    | some i => prevArchives.set i (mkData ((prevArchives.getD i default).id))
    | none => mkData newId :: prevArchives

/-! ### Task editing (`handleSaveTask`, `src/App.tsx` lines 476–487) -/

/-- Embeds `Partial<Task>`: every field possibly absent.  An absent field leaves the
edited task's field unchanged under object spread. -/
structure TaskPatch where
  id : Option String := none
  title : Option String := none
  description : Option (Option String) := none
  dayIndex : Option (Option Nat) := none
  startTime : Option (Option String) := none
  duration : Option Nat := none
  isCompleted : Option Bool := none
  color : Option (Option String) := none
  deriving DecidableEq, Inhabited

/-- Embeds `{ ...t, ...taskData }`: fields present in the patch override. -/
def applyPatch (t : Task) (p : TaskPatch) : Task :=
  { id := p.id.getD t.id
  , title := p.title.getD t.title
  , description := p.description.getD t.description
  , dayIndex := p.dayIndex.getD t.dayIndex
  , startTime := p.startTime.getD t.startTime
  , duration := p.duration.getD t.duration
  , isCompleted := p.isCompleted.getD t.isCompleted
  , color := p.color.getD t.color }

/-- Embeds `{ ...(taskData as Task), id: generateId(), isCompleted: false }` —
the spread of the payload with `id` and `isCompleted` overridden (fields the
payload omits are `undefined` in the source; the claims do not depend on them
and they default here). -/
def mkNewTask (p : TaskPatch) (newId : String) : Task :=
  { id := newId
  , title := p.title.getD ""
  , description := p.description.getD none
  , dayIndex := p.dayIndex.getD none
  , startTime := p.startTime.getD none
  , duration := p.duration.getD 30
  , isCompleted := false
  , color := p.color.getD none }

/-- Embeds `handleSaveTask` from `src/App.tsx` (lines 476–487), as the task-list
transformer it applies via `setTasks`.  The branch test is the JS truthiness
check `if (taskData.id)`: a present but empty-string id is falsy and falls
into the append branch, exactly like an absent id. -/
def handleSaveTask (taskData : TaskPatch) (newId : String)
    (tasks : List Task) : List Task :=
  match taskData.id with
  | some i =>
    if i = "" then tasks ++ [mkNewTask taskData newId]
    else tasks.map (fun t => if t.id = i then applyPatch t taskData else t)
  | none => tasks ++ [mkNewTask taskData newId]

/-! ### History grid generation (`calendarData`, `src/unnamed/part_000`
lines 222–279) -/

/-- One cell of the history grid (`WeekBlock` in the source; `startDate` kept
as the civil date underlying the ISO string). -/
structure WeekBlock where
  startDate : CivilDate
  dayLabel : Nat
  archive : Option WeeklyArchive
  deriving DecidableEq, Inhabited

/-- Four-digit-padded year, as in `Date#toISOString`. -/
def pad4 (n : Nat) : String :=
  if n < 10 then "000" ++ toString n
  else if n < 100 then "00" ++ toString n
  else if n < 1000 then "0" ++ toString n
  else toString n

/-- Embeds `date.toISOString().split('T')[0]` of a civil date. -/
def isoDateStr (d : CivilDate) : String :=
  pad4 d.year.toNat ++ "-" ++ pad2 (d.month0 + 1) ++ "-" ++ pad2 d.day

/-- Embeds `findArchive` from `calendarData`. -/
def findArchive (archives : List WeeklyArchive) (d : CivilDate) : Option WeeklyArchive :=
  archives.find? (fun a => a.weekStartDate.startsWith (isoDateStr d))

/-- The `while (iterDate.getDay() !== 1)` fast-forward to the first Monday; at
most 6 steps are ever taken, `fuel` bounds the unrolling. -/
def firstMondayFrom : Nat → CivilDate → CivilDate
  | 0, d => d
  | fuel + 1, d => if weekdayOf d = 1 then d else firstMondayFrom fuel (nextDay d)

/-- The `while (true)` scan of `calendarData`: starting at `iter`, walk
forward one week at a time, emitting a `WeekBlock` for every week whose
majority year equals `year` and stopping as soon as the majority year exceeds
`year`.  `fuel` bounds the unrolling (the source loop takes at most ~55
iterations); every property proved below holds for all `fuel`. -/
def scanWeeks (archives : List WeeklyArchive) (year : Int) :
    Nat → CivilDate → List WeekBlock
  | 0, _ => []
  | fuel + 1, iter =>
    let info := getMajorityMonthInfo iter
    if year < info.1 then []
    else
      (if info.1 = year then
        [{ startDate := iter, dayLabel := iter.day, archive := findArchive archives iter }]
       else []) ++ scanWeeks archives year fuel (addDays iter 7)

/-- The bucket `data[year][m0]` built by `calendarData`: the scan starts from
the first Monday on or after December 20 of the previous year, and each
emitted week lands in the bucket of its majority month, in scan order. -/
def monthBucket (archives : List WeeklyArchive) (year : Int) (fuel : Nat)
    (m0 : Nat) : List WeekBlock :=
  (scanWeeks archives year fuel (firstMondayFrom 7 ⟨year - 1, 11, 20⟩)).filter
    (fun wb => (getMajorityMonthInfo wb.startDate).2 = m0)

/-- The 12 month buckets `data[year]` of `calendarData` for one year. -/
def calendarMonths (archives : List WeeklyArchive) (year : Int) (fuel : Nat) :
    List (List WeekBlock) :=
  (List.range 12).map (monthBucket archives year fuel)

/-- Strict chronological order on civil dates. -/
def civLt (a b : CivilDate) : Prop :=
  a.year < b.year ∨ (a.year = b.year ∧
    (a.month0 < b.month0 ∨ (a.month0 = b.month0 ∧ a.day < b.day)))

instance : DecidableRel civLt := fun a b => by unfold civLt; infer_instance

/-! ### General-purpose helper lemmas -/

theorem list_set_getElem_eq {α : Type _} (l : List α) :
    ∀ (i : Nat) (h : i < l.length), l.set i (l.get ⟨i, h⟩) = l := by
  induction l with
  | nil => intro i h; simp at h
  | cons a t ih =>
    intro i h
    cases i with
    | zero => rfl
    | succ j =>
      have := ih j (by simpa using h)
      simpa using this

theorem list_eraseIdx_map {α β : Type _} (f : α → β) (l : List α) :
    ∀ i, (l.eraseIdx i).map f = (l.map f).eraseIdx i := by
  induction l with
  | nil => intro i; rfl
  | cons a t ih =>
    intro i
    cases i with
    | zero => rfl
    | succ j => simpa using ih j

theorem jsFindIndex_some {α : Type _} {p : α → Bool} :
    ∀ {l : List α} {i : Nat}, jsFindIndex p l = some i →
      ∃ hi : i < l.length, p (l.get ⟨i, hi⟩) = true := by
  intro l
  induction l with
  | nil => intro i h; cases h
  | cons a t ih =>
    intro i h
    by_cases hp : p a
    · simp [jsFindIndex, hp] at h
      subst h
      exact ⟨by simp, by simpa using hp⟩
    · simp [jsFindIndex, hp] at h
      obtain ⟨j, hj, rfl⟩ := h
      obtain ⟨hlt, hpj⟩ := ih hj
      exact ⟨by simpa using hlt, by simpa using hpj⟩

theorem jsFindIndex_none {α : Type _} {p : α → Bool} :
    ∀ {l : List α}, jsFindIndex p l = none → ∀ a ∈ l, p a = false := by
  intro l
  induction l with
  | nil => intro _ a ha; cases ha
  | cons b t ih =>
    intro h a ha
    by_cases hp : p b
    · simp [jsFindIndex, hp] at h
    · rcases List.mem_cons.mp ha with rfl | hmem
      · simpa using hp
      · refine ih ?_ a hmem
        simp [jsFindIndex, hp] at h
        exact h

/-- Embeds `Math.ceil` of an integer divided by a positive natural, in terms of
integer floor division. -/
theorem ceil_intCast_div_natCast (n : ℤ) (d : ℕ) :
    ⌈(n : ℚ) / (d : ℚ)⌉ = -((-n) / (d : ℤ)) := by
  rw [show ((n : ℚ) / (d : ℚ)) = -((((-n : ℤ) : ℚ)) / (d : ℚ)) by push_cast; ring,
    Int.ceil_neg, Rat.floor_intCast_div_natCast]

/-- Embeds `Math.ceil(a / 60)` for a natural `a`, as natural division. -/
theorem ceil_natCast_div_60 (a : ℕ) : ⌈(a : ℚ) / 60⌉ = ((a + 59) / 60 : ℕ) := by
  have h := ceil_intCast_div_natCast (a : ℤ) 60
  push_cast at h
  rw [h]
  omega

/-- Embeds `Math.ceil(n / 15)` for an integer `n`, as integer floor division. -/
theorem ceil_intCast_div_15 (n : ℤ) : ⌈(n : ℚ) / 15⌉ = (n + 14) / 15 := by
  have h := ceil_intCast_div_natCast n 15
  push_cast at h
  rw [h]
  omega

/-- Embeds `Math.ceil(n / 7)` for an integer `n`, as integer floor division. -/
theorem ceil_intCast_div_7 (n : ℤ) : ⌈(n : ℚ) / 7⌉ = (n + 6) / 7 := by
  have h := ceil_intCast_div_natCast n 7
  push_cast at h
  rw [h]
  omega

/-- Rewrites `getWeekNumber` as pure integer arithmetic: the millisecond/day scaling in
the source cancels, and `Math.ceil(x / 7)` is `(x + 6) / 7`. -/
theorem getWeekNumber_eval (d : CivilDate) :
    getWeekNumber d =
      (dayNumber d - dayNumber ⟨d.year, 0, 1⟩
        + (weekdayOf ⟨d.year, 0, 1⟩ : Int) + 1 + 6) / 7 := by
  simp only [getWeekNumber]
  rw [show (((dayNumber d * 86400000 - dayNumber ⟨d.year, 0, 1⟩ * 86400000 : ℤ) : ℚ))
          / 86400000 + ((weekdayOf ⟨d.year, 0, 1⟩ : Nat) : ℚ) + 1
      = (((dayNumber d - dayNumber ⟨d.year, 0, 1⟩
          + (weekdayOf ⟨d.year, 0, 1⟩ : Int) + 1 : ℤ) : ℚ)) by
    push_cast
    field_simp
    ring]
  rw [ceil_intCast_div_7]

/-! ### Claim C6 — `getMonday` -/

/-- Claim C6: `getMonday` is deterministic (it is a function of its argument),
equals `D - ((weekday(D) + 6) mod 7)` days with the time of day zeroed, is
idempotent, and is constant on each Monday-anchored week. -/
theorem getMonday_spec (d : JSDate) :
    getMonday d = ⟨d.day - ((jsGetDay d + 6) % 7), 0⟩ ∧
    getMonday (getMonday d) = getMonday d ∧
    (∀ k : Nat, k < 7 → ∀ mins : Nat,
      getMonday ⟨(getMonday d).day + k, mins⟩ = getMonday d) := by
  refine ⟨?_, ?_, ?_⟩
  · simp [getMonday, jsGetDay, JSDate.mk.injEq]
    split_ifs <;> omega
  · simp [getMonday, jsGetDay, JSDate.mk.injEq]
    split_ifs <;> omega
  · intro k hk mins
    simp [getMonday, jsGetDay, JSDate.mk.injEq]
    split_ifs <;> omega

/-- Witness for `getMonday_spec` at a concrete date (day 20000 since the
epoch, i.e. a concrete 2024 date, offset 3 days into its week). -/
theorem getMonday_spec_witness :
    getMonday ⟨(getMonday ⟨20000, 300⟩).day + 3, 45⟩ = getMonday ⟨20000, 300⟩ :=
  (getMonday_spec ⟨20000, 300⟩).2.2 3 (by decide) 45

/-! ### Claim C3 — majority-month assignment -/

/-- Claim C3: every week (Monday) is assigned to the calendar month and year of
its Monday plus 3 days (its Thursday); in particular, for every year `y`, a
week starting December 29 is assigned to January of year `y + 1`, and a week
starting December 25 is assigned to December of year `y`. -/
theorem getMajorityMonthInfo_spec (y : Int) (d : CivilDate) :
    getMajorityMonthInfo d = ((addDays d 3).year, (addDays d 3).month0) ∧
    getMajorityMonthInfo ⟨y, 11, 29⟩ = (y + 1, 0) ∧
    getMajorityMonthInfo ⟨y, 11, 25⟩ = (y, 11) := by
  refine ⟨rfl, ?_, ?_⟩ <;>
    simp [getMajorityMonthInfo, addDays, nextDay, daysInMonth]

/-! ### Claim C9 — legacy `dailyThoughts` shapes -/

/-- Claim C9, counterexample: for the legacy empty string, the claim demands
the one-entry map `{ "Mon": "" }`, but the source's
`!existingArchive.dailyThoughts` check (`src/App.tsx` line 500) catches the
falsy `""` first and loads the empty map. -/
theorem legacy_archive_empty_string_decode :
    decodeArchiveThoughts (some (.legacy "")) ≠ [("Mon", "")] := by
  decide

/-- Claim C9, amended: loading a current-view record whose `dailyThoughts` is
a legacy single string yields the one-entry map keyed by today's day label
(the `typeof` test there precedes any truthiness test, so this holds for the
empty string too); loading an archived week whose `dailyThoughts` is a legacy
single *non-empty* string yields the one-entry map keyed `"Mon"`, while the
falsy empty string loads as the empty map. -/
theorem legacy_thoughts_decode (s : String) (todayIndex : Fin 7) :
    decodeCurrentThoughts (DAYS_OF_WEEK.get ⟨todayIndex.val, todayIndex.isLt⟩)
        (some (.legacy s))
      = [(DAYS_OF_WEEK.get ⟨todayIndex.val, todayIndex.isLt⟩, s)] ∧
    (s ≠ "" → decodeArchiveThoughts (some (.legacy s)) = [("Mon", s)]) ∧
    decodeArchiveThoughts (some (.legacy "")) = [] :=
  ⟨rfl, fun h => by simp [decodeArchiveThoughts, h], rfl⟩

/-- Witness for `legacy_thoughts_decode`: a concrete non-empty legacy note. -/
theorem legacy_thoughts_decode_witness :
    decodeArchiveThoughts (some (.legacy "note")) = [("Mon", "note")] :=
  (legacy_thoughts_decode "note" ⟨0, by decide⟩).2.1 (by decide)

/-! ### Claim C4 — stop/toggle on a non-matching or absent goal -/

/-- A concrete all-empty application state. -/
def emptyState : AppState :=
  { tasks := [], goals := [], dailyThoughts := [], archives := []
  , currentWeekStartDate := "", currentWeekLabel := ""
  , activeTimer := none, timerDisplay := 0, isHistoryOpen := false }

/-- Claim C4, counterexample: with no active timer, `toggleTimer` on a goal id
is *not* a no-op — it starts a new running timer for that goal (the claim
asserts stop *and* toggle are both no-ops). -/
theorem toggleTimer_not_noop :
    toggleTimer 0 "g1" emptyState ≠ emptyState := by
  decide

/-- Claim C4, amended: for a goal id that is not the active timer's goal
(including when no timer exists), `stopTimer` is a strict no-op, and
`toggleTimer` is not a no-op but starts a fresh running timer for that goal
(accumulated 0, display reset), leaving all other state unchanged; neither
raises an error. -/
theorem timer_nonmatching_goal (now : Nat) (newId goalId : String) (s : AppState)
    (h : ∀ t, s.activeTimer = some t → t.goalId ≠ goalId) :
    stopTimer now newId goalId s = s ∧
    toggleTimer now goalId s =
      { s with activeTimer := some ⟨goalId, now, 0, true⟩, timerDisplay := 0 } := by
  cases ht : s.activeTimer with
  | none => simp [stopTimer, toggleTimer, ht]
  | some t =>
    have hne := h t ht
    simp [stopTimer, toggleTimer, ht, hne]

/-- Witness for `timer_nonmatching_goal` on the empty state. -/
theorem timer_nonmatching_goal_witness :
    stopTimer 7 "n1" "g1" emptyState = emptyState ∧
    toggleTimer 7 "g1" emptyState =
      { emptyState with activeTimer := some ⟨"g1", 7, 0, true⟩, timerDisplay := 0 } :=
  timer_nonmatching_goal 7 "n1" "g1" emptyState (fun _t ht => nomatch ht)

/-! ### Claim C10 — `handleSaveTask` frame conditions -/

/-- Claim C10, counterexample: a payload whose `id` is the empty string
carries the id of an existing task (one task with id `""`), yet the source's
truthiness test `if (taskData.id)` (`src/App.tsx` line 477) treats the falsy
`""` as absent and appends a new task, changing the list's length — refuting
the claimed length/frame preservation. -/
theorem handleSaveTask_falsy_id :
    (handleSaveTask { id := some "" } "n"
        [{ id := "", title := "t" }]).length
      ≠ ([{ id := "", title := "t" }] : List Task).length := by
  decide

/-- Claim C10, amended: saving a payload whose id is present and *non-empty*
preserves the list's length and order and rewrites exactly the tasks whose id
matches, leaving every other task unchanged; saving a payload with no id — or
with the empty-string id, which the source's truthiness test treats as absent
— appends a single new task with `isCompleted = false`, leaving all existing
tasks unchanged. -/
theorem handleSaveTask_spec (p : TaskPatch) (newId : String) (tasks : List Task) :
    (∀ i : String, p.id = some i → i ≠ "" →
      (handleSaveTask p newId tasks).length = tasks.length ∧
      ∀ (j : Nat) (t : Task), tasks[j]? = some t →
        (t.id ≠ i → (handleSaveTask p newId tasks)[j]? = some t) ∧
        (t.id = i → (handleSaveTask p newId tasks)[j]? = some (applyPatch t p))) ∧
    (p.id = none ∨ p.id = some "" →
      handleSaveTask p newId tasks = tasks ++ [mkNewTask p newId] ∧
      (mkNewTask p newId).isCompleted = false) := by
  constructor
  · intro i hi hne
    simp only [handleSaveTask, hi, hne, if_neg, ite_false]
    refine ⟨List.length_map _ _, ?_⟩
    intro j t ht
    rw [List.getElem?_map, ht]
    constructor
    · intro hne'; simp [hne']
    · intro heq; simp [heq]
  · rintro (hn | hn)
    · simp [handleSaveTask, hn, mkNewTask]
    · simp [handleSaveTask, hn, mkNewTask]

/-- Witness for `handleSaveTask_spec`: an edit of one concrete task in a
two-task list. -/
theorem handleSaveTask_spec_witness :
    (handleSaveTask { id := some "a", title := some "new" } "fresh"
        [{ id := "a", title := "old" }, { id := "b", title := "keep" }])[1]?
      = some { id := "b", title := "keep" } :=
  (((handleSaveTask_spec { id := some "a", title := some "new" } "fresh"
      [{ id := "a", title := "old" }, { id := "b", title := "keep" }]).1
      "a" rfl (by decide)).2
    1 { id := "b", title := "keep" } rfl).1 (by decide)

/-! ### Claim C1 — stopping the timer creates the rounded, backdated task -/

/-- Claim C1: stopping the timer for the active goal resets the timer to idle
and, when the accumulated `totalSeconds` is positive, appends exactly one new
task: duration `max(15, ceil(ceil(totalSeconds/60)/15)*15)` minutes, start
time backdated to `now − totalSeconds` with the hour clamped up to
`START_HOUR` and the minute floored to `:00`/`:30`, placed on the current day
index, marked completed, titled from the goal's text (or a default) plus the
`" (Timer)"` suffix, and colored with the goal's color (or the fallback
`TASK_COLORS[2]`); when `totalSeconds = 0` no task is created. -/
theorem stopTimer_spec (now : Nat) (newId goalId : String) (s : AppState)
    (t : TimerState) (ts : Nat)
    (ht : s.activeTimer = some t) (hgid : t.goalId = goalId)
    (hts : ts = t.accumulated + (if t.isRunning then (now - t.startTime) / 1000 else 0)) :
    (stopTimer now newId goalId s).activeTimer = none ∧
    (stopTimer now newId goalId s).timerDisplay = 0 ∧
    (stopTimer now newId goalId s).goals = s.goals ∧
    (stopTimer now newId goalId s).archives = s.archives ∧
    (ts = 0 → (stopTimer now newId goalId s).tasks = s.tasks) ∧
    (0 < ts → (stopTimer now newId goalId s).tasks = s.tasks ++
      [{ id := newId
       , title := (match s.goals.find? (fun g => g.id = goalId) with
                   | some g => if g.text = "" then "Focus Session" else g.text
                   | none => "Focus Session") ++ " (Timer)"
       , description := none
       , dayIndex := some (getCurrentDayIndex now)
       , startTime := some (pad2 (max START_HOUR (hoursOfMs (now - ts * 1000))) ++ ":" ++
           (if minutesOfMs (now - ts * 1000) < 30 then "00" else "30"))
       , duration := max 15 ((⌈((⌈(ts : ℚ) / 60⌉ : ℤ) : ℚ) / 15⌉).toNat * 15)
       , isCompleted := true
       , color := some (match s.goals.find? (fun g => g.id = goalId) with
                   | some g => if g.color = "" then TASK_COLORS[2]! else g.color
                   | none => TASK_COLORS[2]!) }]) := by
  subst hgid
  have hdur : max 15 ((⌈((⌈(ts : ℚ) / 60⌉ : ℤ) : ℚ) / 15⌉).toNat * 15)
      = max 15 (((ts + 59) / 60 + 14) / 15 * 15) := by
    rw [ceil_natCast_div_60, ceil_intCast_div_15]
    omega
  have hmax : (if hoursOfMs (now - ts * 1000) < START_HOUR then START_HOUR
        else hoursOfMs (now - ts * 1000))
      = max START_HOUR (hoursOfMs (now - ts * 1000)) := by
    split_ifs with hlt
    · exact (Nat.max_eq_left hlt.le).symm
    · exact (Nat.max_eq_right (Nat.not_lt.mp hlt)).symm
  simp only [stopTimer, ht, ne_eq, not_true_eq_false, if_false, createTaskFromGoal,
    gt_iff_lt, ← hts]
  rcases Nat.eq_zero_or_pos ts with h0 | hpos
  · subst h0
    simp
  · simp only [hpos, if_true, reduceIte]
    refine ⟨by trivial, by trivial, by trivial, by trivial,
      fun h0 => absurd h0 (by omega), fun _ => ?_⟩
    rw [hdur, hmax]

/-- Concrete state with one goal and a running timer started at the epoch. -/
def timerState1 : AppState :=
  { emptyState with
      goals := [{ id := "g", text := "Deep Work", isCompleted := false, color := "c1" }]
      activeTimer := some ⟨"g", 0, 0, true⟩ }

/-- Witness for `stopTimer_spec`: stopping after 90 running seconds. -/
theorem stopTimer_spec_witness :
    (stopTimer 90000 "t1" "g" timerState1).activeTimer = none ∧
    (stopTimer 90000 "t1" "g" timerState1).timerDisplay = 0 :=
  ⟨(stopTimer_spec 90000 "t1" "g" timerState1 ⟨"g", 0, 0, true⟩ 90 rfl rfl (by decide)).1,
   (stopTimer_spec 90000 "t1" "g" timerState1 ⟨"g", 0, 0, true⟩ 90 rfl rfl (by decide)).2.1⟩

/-! ### Claim C2 — archive auto-sync invariant and behavior -/

/-- Claim C2: assuming at most one archive per `weekStartDate`, one sync step
preserves that invariant, and: with no content the active week's entry is
removed (all other entries kept); with content and an existing entry, that
entry is overwritten in place keeping its identifier; with content and no
entry, a fresh-identifier entry is prepended. -/
theorem syncArchives_spec (newId : String) (tasks : List Task) (goals : List Goal)
    (dailyThoughts : List (String × String)) (wsd wlbl : String)
    (prev : List WeeklyArchive)
    (hnodup : (prev.map (fun a => a.weekStartDate)).Nodup) :
    ((syncArchives newId tasks goals dailyThoughts wsd wlbl prev).map
        (fun a => a.weekStartDate)).Nodup ∧
    (hasContent tasks goals dailyThoughts = false →
      ∀ a ∈ syncArchives newId tasks goals dailyThoughts wsd wlbl prev,
        a.weekStartDate ≠ wsd) ∧
    (hasContent tasks goals dailyThoughts = false →
      ∀ a ∈ prev, a.weekStartDate ≠ wsd →
        a ∈ syncArchives newId tasks goals dailyThoughts wsd wlbl prev) ∧
    (hasContent tasks goals dailyThoughts = true →
      ∀ i, jsFindIndex (fun a => a.weekStartDate = wsd) prev = some i →
        ∃ hi : i < prev.length,
          syncArchives newId tasks goals dailyThoughts wsd wlbl prev =
            prev.set i
              { id := (prev.get ⟨i, hi⟩).id, weekStartDate := wsd, weekLabel := wlbl
              , tasks := tasks, goals := goals
              , dailyThoughts := some (.mapNotes dailyThoughts) }) ∧
    (hasContent tasks goals dailyThoughts = true →
      jsFindIndex (fun a => a.weekStartDate = wsd) prev = none →
        syncArchives newId tasks goals dailyThoughts wsd wlbl prev =
          { id := newId, weekStartDate := wsd, weekLabel := wlbl
          , tasks := tasks, goals := goals
          , dailyThoughts := some (.mapNotes dailyThoughts) } :: prev) := by
  rcases hfi : jsFindIndex (fun a => a.weekStartDate = wsd) prev with _ | i
  · -- no existing entry
    by_cases hc : hasContent tasks goals dailyThoughts = true
    · -- content: a fresh entry is prepended
      have hres : syncArchives newId tasks goals dailyThoughts wsd wlbl prev =
          { id := newId, weekStartDate := wsd, weekLabel := wlbl
          , tasks := tasks, goals := goals
          , dailyThoughts := some (.mapNotes dailyThoughts) } :: prev := by
        simp [syncArchives, hc, hfi]
      refine ⟨?_, ?_, ?_, ?_, fun _ _ => hres⟩
      · rw [hres]
        simp only [List.map_cons, List.nodup_cons]
        refine ⟨?_, hnodup⟩
        intro hmem
        obtain ⟨a, ha, hkey⟩ := List.mem_map.mp hmem
        have := jsFindIndex_none hfi a ha
        simp [hkey] at this
      · intro hcf; rw [hcf] at hc; simp at hc
      · intro hcf; rw [hcf] at hc; simp at hc
      · intro _ i hi; rw [hi] at hfi; cases hfi
    · -- no content: result = prev
      have hcf := Bool.not_eq_true _ |>.mp hc
      have hres : syncArchives newId tasks goals dailyThoughts wsd wlbl prev = prev := by
        simp [syncArchives, hc, hfi]
      refine ⟨by rw [hres]; exact hnodup, ?_, ?_, ?_, ?_⟩
      · intro _ a ha
        rw [hres] at ha
        have := jsFindIndex_none hfi a ha
        simpa using this
      · intro _ a ha _
        rw [hres]; exact ha
      · intro hct; exact absurd hct hc
      · intro hct; exact absurd hct hc
  · -- an entry exists at index i
    obtain ⟨hi, hpkey⟩ := jsFindIndex_some hfi
    have hkey_i : (prev.get ⟨i, hi⟩).weekStartDate = wsd := by simpa using hpkey
    by_cases hc : hasContent tasks goals dailyThoughts = true
    · -- content: entry overwritten in place, identifier kept
      have hres : syncArchives newId tasks goals dailyThoughts wsd wlbl prev =
          prev.set i
            { id := (prev.getD i default).id, weekStartDate := wsd, weekLabel := wlbl
            , tasks := tasks, goals := goals
            , dailyThoughts := some (.mapNotes dailyThoughts) } := by
        simp [syncArchives, hc, hfi]
      have hgetD : prev.getD i default = prev.get ⟨i, hi⟩ := by
        simp [List.getD_eq_getElem?_getD, List.getElem?_eq_getElem hi]
      refine ⟨?_, ?_, ?_, ?_, ?_⟩
      · rw [hres, List.map_set]
        have hilen : i < (prev.map (fun a => a.weekStartDate)).length := by
          simpa using hi
        have hget : (prev.map (fun a => a.weekStartDate)).get ⟨i, hilen⟩ = wsd := by
          simp only [List.get_eq_getElem, List.getElem_map]
          simpa using hkey_i
        have hkeep : ((prev.map (fun a => a.weekStartDate)).set i wsd).Nodup := by
          rw [← hget, list_set_getElem_eq]
          exact hnodup
        simpa using hkeep
      · intro hcf; rw [hcf] at hc; simp at hc
      · intro hcf; rw [hcf] at hc; simp at hc
      · intro _ j hj
        rw [hfi] at hj
        cases hj
        exact ⟨hi, by rw [hres, hgetD]⟩
      · intro _ hn; rw [hn] at hfi; cases hfi
    · -- no content: entry erased
      have hres : syncArchives newId tasks goals dailyThoughts wsd wlbl prev =
          prev.eraseIdx i := by
        simp [syncArchives, hc, hfi]
      have hinj : Function.Injective (prev.map (fun a => a.weekStartDate)).get :=
        List.nodup_iff_injective_get.mp hnodup
      refine ⟨?_, ?_, ?_, ?_, ?_⟩
      · rw [hres, list_eraseIdx_map]
        exact hnodup.sublist (List.eraseIdx_sublist _ i)
      · intro _ a ha
        rw [hres] at ha
        obtain ⟨j, hj, hji, hja⟩ := List.mem_eraseIdx_iff_getElem.mp ha
        intro hkey
        have hjlen : j < (prev.map (fun a => a.weekStartDate)).length := by
          simpa using hj
        have hilen : i < (prev.map (fun a => a.weekStartDate)).length := by
          simpa using hi
        have heq : (prev.map (fun a => a.weekStartDate)).get ⟨j, hjlen⟩ =
            (prev.map (fun a => a.weekStartDate)).get ⟨i, hilen⟩ := by
          simp only [List.get_eq_getElem, List.getElem_map]
          rw [hja, hkey, ← hkey_i]
          simp
        have := hinj heq
        exact hji (by simpa using congrArg Fin.val this)
      · intro _ a ha hkey
        obtain ⟨j, hj, hja⟩ := List.getElem_of_mem ha
        rw [hres]
        refine List.mem_eraseIdx_iff_getElem.mpr ⟨j, hj, ?_, hja⟩
        intro hji
        subst hji
        rw [← hja] at hkey
        exact hkey (by simpa using hkey_i)
      · intro hct; exact absurd hct hc
      · intro _ hn; rw [hn] at hfi; cases hfi

/-- Witness for `syncArchives_spec`: syncing a week with one goal into an
empty archive collection prepends a fresh entry. -/
theorem syncArchives_spec_witness :
    syncArchives "id9" []
      [{ id := "g", text := "x", isCompleted := false, color := "c" }]
      [] "2025-01-06" "2025 - Week 2" [] =
      [{ id := "id9", weekStartDate := "2025-01-06", weekLabel := "2025 - Week 2"
       , tasks := []
       , goals := [{ id := "g", text := "x", isCompleted := false, color := "c" }]
       , dailyThoughts := some (.mapNotes []) }] :=
  (syncArchives_spec "id9" []
      [{ id := "g", text := "x", isCompleted := false, color := "c" }]
      [] "2025-01-06" "2025 - Week 2" [] (by decide)).2.2.2.2 (by decide) rfl

/-! ### Claim C5 — week navigation -/

/-- Claim C5: selecting a week normalizes the target to a date-only key; a
matching archive's tasks/goals are loaded verbatim, its decoded notes
installed (verbatim whenever they are in the map shape; a missing or falsy
legacy-empty-string field yields the empty map, a non-empty legacy string the
`"Mon"`-keyed singleton — see `decodeArchiveThoughts`) and its stored label
adopted; with no match the view is cleared to empty tasks/goals/notes with a
label freshly generated from the target date.  In both cases the active
`weekStartDate` becomes the key and the picker closes; the operation is a
total function (it never throws). -/
theorem handleSelectWeek_spec (startDate : String) (s : AppState) :
    (handleSelectWeek startDate s).currentWeekStartDate = jsSplitT startDate ∧
    (handleSelectWeek startDate s).isHistoryOpen = false ∧
    (handleSelectWeek startDate s).archives = s.archives ∧
    (∀ a, s.archives.find?
        (fun a => a.weekStartDate.startsWith (jsSplitT startDate)) = some a →
      (handleSelectWeek startDate s).tasks = a.tasks ∧
      (handleSelectWeek startDate s).goals = a.goals ∧
      (handleSelectWeek startDate s).currentWeekLabel = a.weekLabel ∧
      (handleSelectWeek startDate s).dailyThoughts
        = decodeArchiveThoughts a.dailyThoughts ∧
      (∀ m, a.dailyThoughts = some (.mapNotes m) →
        (handleSelectWeek startDate s).dailyThoughts = m)) ∧
    (s.archives.find?
        (fun a => a.weekStartDate.startsWith (jsSplitT startDate)) = none →
      (handleSelectWeek startDate s).tasks = [] ∧
      (handleSelectWeek startDate s).goals = [] ∧
      (handleSelectWeek startDate s).dailyThoughts = [] ∧
      (handleSelectWeek startDate s).currentWeekLabel
        = generateWeekLabel (parseDateStr startDate)) := by
  rcases hf : s.archives.find?
      (fun a => a.weekStartDate.startsWith (jsSplitT startDate)) with _ | a
  · refine ⟨?_, ?_, ?_, ?_, ?_⟩ <;> simp [handleSelectWeek, hf]
  · refine ⟨?_, ?_, ?_, ?_, ?_⟩
    · simp [handleSelectWeek, hf]
    · simp [handleSelectWeek, hf]
    · simp [handleSelectWeek, hf]
    · intro b hb
      rw [hf] at hb
      cases hb
      refine ⟨?_, ?_, ?_, ?_, ?_⟩ <;> try simp [handleSelectWeek, hf]
      intro m hm
      simp [handleSelectWeek, hf, hm, decodeArchiveThoughts]
    · intro hn; rw [hn] at hf; cases hf

/-- Witness for `handleSelectWeek_spec`: selecting a week with an empty
archive collection. -/
theorem handleSelectWeek_spec_witness :
    (handleSelectWeek "2025-01-06" emptyState).currentWeekStartDate = "2025-01-06" ∧
    (handleSelectWeek "2025-01-06" emptyState).tasks = [] :=
  ⟨by rw [(handleSelectWeek_spec "2025-01-06" emptyState).1]; decide,
   ((handleSelectWeek_spec "2025-01-06" emptyState).2.2.2.2 rfl).1⟩

/-! ### Claim C7 — week label (corrected) -/

/-- Claim C7, counterexample: at 2025-12-29 (a Monday) the ISO week-numbering
year is 2026 but the generated label uses the calendar year 2025, so the label
is not `"{ISOYear} - Week {N}"` as claimed. -/
theorem generateWeekLabel_not_iso_year :
    generateWeekLabel ⟨2025, 11, 29⟩
      ≠ toString (isoWeekYear ⟨2025, 11, 29⟩) ++ " - Week "
          ++ toString ⌈((dayNumber ⟨2025, 11, 29⟩ - dayNumber ⟨2025, 0, 1⟩
                + (weekdayOf ⟨2025, 0, 1⟩ : Int) + 1 : ℤ) : ℚ) / 7⌉ := by
  rw [ceil_intCast_div_7]
  have h1 : isoWeekYear ⟨2025, 11, 29⟩ = 2026 := by decide
  have h2 : getWeekNumber ⟨2025, 11, 29⟩ = 53 := by
    rw [getWeekNumber_eval]
    decide
  rw [h1]
  simp only [generateWeekLabel, h2]
  decide

/-- Claim C7, amended: for every date `D`, the generated week label is
`"{Year} - Week {N}"` where the year component is the *calendar* year of `D`
(not the ISO week-numbering year) and
`N = ceil(((D − Jan1) in days + Jan1.weekday + 1) / 7)` with weekdays numbered
Sunday = 0. -/
theorem generateWeekLabel_spec (d : CivilDate) :
    generateWeekLabel d = toString d.year ++ " - Week "
      ++ toString ⌈((dayNumber d - dayNumber ⟨d.year, 0, 1⟩
            + (weekdayOf ⟨d.year, 0, 1⟩ : Int) + 1 : ℤ) : ℚ) / 7⌉ := by
  unfold generateWeekLabel
  rw [getWeekNumber_eval, ceil_intCast_div_7]

/-! ### Claim C8 — history grid generation -/

theorem civLt_nextDay (d : CivilDate) : civLt d (nextDay d) := by
  unfold nextDay civLt
  split_ifs <;> simp_all

theorem civLt_trans {a b c : CivilDate} (hab : civLt a b) (hbc : civLt b c) :
    civLt a c := by
  unfold civLt at *
  omega

theorem civLt_addDays (d : CivilDate) : ∀ n : Nat, 0 < n → civLt d (addDays d n) := by
  intro n
  induction n generalizing d with
  | zero => intro h; cases h
  | succ k ih =>
    intro _
    rcases Nat.eq_zero_or_pos k with rfl | hk
    · simpa [addDays] using civLt_nextDay d
    · exact civLt_trans (civLt_nextDay d) (by simpa [addDays] using ih (nextDay d) hk)

/-- Every week emitted by the scan has majority year equal to the target
year. -/
theorem scanWeeks_mem_majority (archives : List WeeklyArchive) (year : Int) :
    ∀ (fuel : Nat) (iter : CivilDate) (wb : WeekBlock),
      wb ∈ scanWeeks archives year fuel iter →
      (getMajorityMonthInfo wb.startDate).1 = year := by
  intro fuel
  induction fuel with
  | zero => intro iter wb h; cases h
  | succ n ih =>
    intro iter wb h
    rw [scanWeeks] at h
    split at h
    · cases h
    · rcases List.mem_append.mp h with hl | hr
      · split at hl
        · rcases List.mem_singleton.mp hl with rfl
          assumption
        · cases hl
      · exact ih _ wb hr

/-- Every week emitted by the scan starts at or after the scan origin. -/
theorem scanWeeks_mem_ge (archives : List WeeklyArchive) (year : Int) :
    ∀ (fuel : Nat) (iter : CivilDate) (wb : WeekBlock),
      wb ∈ scanWeeks archives year fuel iter →
      wb.startDate = iter ∨ civLt iter wb.startDate := by
  intro fuel
  induction fuel with
  | zero => intro iter wb h; cases h
  | succ n ih =>
    intro iter wb h
    rw [scanWeeks] at h
    split at h
    · cases h
    · rcases List.mem_append.mp h with hl | hr
      · split at hl
        · rcases List.mem_singleton.mp hl with rfl
          exact Or.inl rfl
        · cases hl
      · rcases ih _ wb hr with heq | hlt
        · exact Or.inr (heq ▸ civLt_addDays iter 7 (by omega))
        · exact Or.inr (civLt_trans (civLt_addDays iter 7 (by omega)) hlt)

/-- The scan emits weeks in strictly increasing chronological order. -/
theorem scanWeeks_pairwise (archives : List WeeklyArchive) (year : Int) :
    ∀ (fuel : Nat) (iter : CivilDate),
      (scanWeeks archives year fuel iter).Pairwise
        (fun a b => civLt a.startDate b.startDate) := by
  intro fuel
  induction fuel with
  | zero => intro iter; exact List.Pairwise.nil
  | succ n ih =>
    intro iter
    rw [scanWeeks]
    split
    · exact List.Pairwise.nil
    · split
      · refine List.Pairwise.cons ?_ (ih _)
        intro b hb
        rcases scanWeeks_mem_ge archives year n (addDays iter 7) b hb with heq | hlt
        · exact heq ▸ civLt_addDays iter 7 (by omega)
        · exact civLt_trans (civLt_addDays iter 7 (by omega)) hlt
      · simpa using ih (addDays iter 7)

/-- Claim C8: grid generation yields exactly 12 month buckets per year; every
generated week belongs to exactly one bucket across all generated years (its
majority month and year determine the bucket); weeks within each bucket are in
strictly increasing chronological order; and the generation is a pure, stable
function of its inputs.  All properties hold for every unrolling bound
`fuel`. -/
theorem calendarData_spec (archives : List WeeklyArchive) (year : Int) (fuel : Nat) :
    (calendarMonths archives year fuel).length = 12 ∧
    (∀ (y y' : Int) (m m' : Nat) (wb : WeekBlock),
      wb ∈ monthBucket archives y fuel m → wb ∈ monthBucket archives y' fuel m' →
      y = y' ∧ m = m') ∧
    (∀ m : Nat, (monthBucket archives year fuel m).Pairwise
      (fun a b => civLt a.startDate b.startDate)) ∧
    (∀ archives' : List WeeklyArchive, archives = archives' →
      calendarMonths archives year fuel = calendarMonths archives' year fuel) := by
  refine ⟨by simp [calendarMonths], ?_, ?_, ?_⟩
  · intro y y' m m' wb h h'
    obtain ⟨hs, hm⟩ := List.mem_filter.mp h
    obtain ⟨hs', hm'⟩ := List.mem_filter.mp h'
    have hy := scanWeeks_mem_majority archives y _ _ wb hs
    have hy' := scanWeeks_mem_majority archives y' _ _ wb hs'
    refine ⟨hy.symm.trans hy', ?_⟩
    have h1 : (getMajorityMonthInfo wb.startDate).2 = m := by simpa using hm
    have h2 : (getMajorityMonthInfo wb.startDate).2 = m' := by simpa using hm'
    rw [← h1, h2]
  · intro m
    exact (scanWeeks_pairwise archives year fuel _).filter _
  · intro archives' h
    rw [h]

/-- Witness for `calendarData_spec`: a two-step scan with an empty archive
collection generates the week of 2024-12-30 into the January bucket of
2025, and that bucket is unique. -/
theorem calendarData_spec_witness :
    (2025 : Int) = 2025 ∧ (0 : Nat) = 0 :=
  (calendarData_spec [] 2025 2).2.1 2025 2025 0 0
    ⟨⟨2024, 11, 30⟩, 30, none⟩ (by decide) (by decide)

end WeeklyFocus
